import Mathlib

/-!
# Verification of the monthly financial ledger engine

Shallow embedding of the ledger core of `coder_2.0.py` (the planner
application): the dataclass data model (`PortfolioData`, `SingleValueData`,
`MonthData`), the `FinancialPlannerModel` undo/redo ledger with its
save/load/import/export persistence codec, the controller-level entry
validation (`validate_numeric_field`, `add_month_data`), and the view's
`clear_all`.

Modelling conventions:
* Python floats are modelled as `Rat`; the built-in `float(str)` conversion is
  modelled by `pyFloat`, covering ordinary signed decimal numerals.
* Python dicts of already-parsed values are modelled as insertion-ordered
  association lists.
* JSON objects are modelled by records (`EntryDoc`, `FieldsDoc`, `ScalarDoc`)
  whose fields are `Option`s recording key presence; only the keys the
  program reads are represented.  A missing required key decodes to a
  `DecodeError.keyError`, mirroring Python's `KeyError`.
* `copy.deepcopy` is the identity on immutable Lean values, so "deep equality,
  not reference equality" is ordinary equality `=` of the embedded values.
* Disk writes may fail for external reasons; each persisting operation takes a
  `writeOk : Bool` oracle.  `save_data` swallows its exception and only logs,
  which is modelled by it returning a `SaveOutcome` rather than an `Except`.
* `datetime.now().isoformat()` is an ambient-clock string passed in as a
  `now`/`ts` parameter.
-/

/-- `InputValidationError` from the source: an exception carrying a message. -/
structure InputValidationError where
  msg : String
  deriving DecidableEq, Repr

/-- `PortfolioData` dataclass: a dict of named numeric fields plus a version
tag (default 1).  The dict is modelled as an insertion-ordered association
list. -/
structure PortfolioData where
  fields : List (String × Rat)
  version : Int := 1
  deriving DecidableEq, Repr

/-- `PortfolioData.total`: sum of the field values. -/
def PortfolioData.total (p : PortfolioData) : Rat :=
  (p.fields.map Prod.snd).sum

/-- `SingleValueData` dataclass: one scalar value plus a version tag. -/
structure SingleValueData where
  value : Rat
  version : Int := 1
  deriving DecidableEq, Repr

/-- `MonthData` dataclass: one month's snapshot of the five portfolios. -/
structure MonthData where
  month : String
  chumz : PortfolioData
  cash : SingleValueData
  crypto : SingleValueData
  etica : SingleValueData
  ziidi : PortfolioData
  timestamp : String
  deriving DecidableEq, Repr

/-- The fixed Chumz field schema from `PORTFOLIO_DEFINITIONS`. -/
def PORTFOLIO_DEFINITIONS_Chumz : List String :=
  ["Emergency Fares", "Quick Savings", "Chumz Monthly Savings",
   "Chumz Expenses", "Chumz Crypto Capital"]

/-- The fixed Ziidi field schema from `PORTFOLIO_DEFINITIONS`. -/
def PORTFOLIO_DEFINITIONS_Ziidi : List String :=
  ["Ziidi Shopping", "Ziidi Weekly Savings", "Ziidi Liquid Expenses"]

/-! ## Python `str.strip` / `float(str)` model -/

/-- Model of Python's `str.strip()`: drop leading and trailing whitespace
(structurally recursive, unlike `String.trim`, so that concrete instances
reduce inside the kernel). -/
def pyStrip (s : String) : String :=
  ⟨((s.data.dropWhile Char.isWhitespace).reverse.dropWhile Char.isWhitespace).reverse⟩

/-- Numeric value of a list of decimal digit characters. -/
def digitsToNat (cs : List Char) : Nat :=
  cs.foldl (fun a c => a * 10 + (c.toNat - 48)) 0

/-- Split a character list at the first dot, if any. -/
def splitAtDot : List Char → List Char × Option (List Char)
  | [] => ([], none)
  | c :: rest =>
    if c = '.' then ([], some rest)
    else
      let p := splitAtDot rest
      (c :: p.1, p.2)

/-- Strip an optional leading sign, returning the sign as a rational. -/
def stripSign : List Char → Rat × List Char
  | '-' :: rest => (-1, rest)
  | '+' :: rest => (1, rest)
  | cs => (1, cs)

/-- Model of Python's `float(s)` on ordinary decimal numerals: optional
surrounding whitespace, optional sign, digits with an optional fractional
part, at least one digit.  Returns `none` when the string is not a numeral
(Python raises `ValueError`). -/
def pyFloat (s : String) : Option Rat :=
  let cs := (pyStrip s).toList
  let sb := stripSign cs
  let p := splitAtDot sb.2
  let ip := p.1
  let fp := (p.2).getD []
  if ip.all Char.isDigit && fp.all Char.isDigit && !(ip.isEmpty && fp.isEmpty) then
    some (sb.1 * ((digitsToNat ip : Rat) + (digitsToNat fp : Rat) / (10 : Rat) ^ fp.length))
  else
    none

/-! ## On-disk JSON document model -/

/-- JSON object stored for a `PortfolioData` (`{"fields": ..., "version": ...}`);
`Option` records key presence. -/
structure FieldsDoc where
  fields : Option (List (String × Rat))
  version : Option Int
  deriving DecidableEq, Repr

/-- JSON object stored for a `SingleValueData`; the legacy `investment` key is
only ever consulted for the Etica portfolio. -/
structure ScalarDoc where
  value : Option Rat
  investment : Option Rat
  version : Option Int
  deriving DecidableEq, Repr

/-- One entry of the stored JSON array. -/
structure EntryDoc where
  month : Option String
  chumz : Option FieldsDoc
  cash : Option ScalarDoc
  crypto : Option ScalarDoc
  etica : Option ScalarDoc
  ziidi : Option FieldsDoc
  timestamp : Option String
  deriving DecidableEq, Repr

/-- Python `KeyError` raised when a required JSON key is absent. -/
inductive DecodeError where
  | keyError (key : String)
  deriving DecidableEq, Repr

/-- Look up a required key: `entry[key]` raises `KeyError` when absent. -/
def requireKey {α : Type} (key : String) : Option α → Except DecodeError α
  | some a => .ok a
  | none => .error (.keyError key)

/-- Decode `entry[key]` as a `PortfolioData`:
`PortfolioData(fields=entry[key]["fields"], version=entry[key].get("version", 1))`. -/
def decodeFieldsDoc (key : String) (d? : Option FieldsDoc) :
    Except DecodeError PortfolioData := do
  let d ← requireKey key d?
  let fs ← requireKey "fields" d.fields
  .ok { fields := fs, version := d.version.getD 1 }

/-- Decode `entry[key]` as a `SingleValueData` for Cash/Crypto:
`SingleValueData(value=entry[key]["value"], version=entry[key].get("version", 1))`. -/
def decodeScalarDoc (key : String) (d? : Option ScalarDoc) :
    Except DecodeError SingleValueData := do
  let d ← requireKey key d?
  let v ← requireKey "value" d.value
  .ok { value := v, version := d.version.getD 1 }

/-- Decode the Etica scalar with the legacy fallback:
`entry["etica"]["value"] if "value" in entry["etica"] else entry["etica"]["investment"]`. -/
def decodeEticaDoc (d? : Option ScalarDoc) : Except DecodeError SingleValueData := do
  let d ← requireKey "etica" d?
  match d.value with
  | some v => .ok { value := v, version := d.version.getD 1 }
  | none => do
    let v ← requireKey "investment" d.investment
    .ok { value := v, version := d.version.getD 1 }

/-- Decode one stored entry into a `MonthData`, exactly as the `MonthData(...)`
construction inside `load_data`/`import_data`; `now` is the ambient clock used
when the `timestamp` key is absent. -/
def decodeEntry (now : String) (e : EntryDoc) : Except DecodeError MonthData := do
  let m ← requireKey "month" e.month
  let chumz ← decodeFieldsDoc "chumz" e.chumz
  let cash ← decodeScalarDoc "cash" e.cash
  let crypto ← decodeScalarDoc "crypto" e.crypto
  let etica ← decodeEticaDoc e.etica
  let ziidi ← decodeFieldsDoc "ziidi" e.ziidi
  .ok { month := m, chumz := chumz, cash := cash, crypto := crypto,
        etica := etica, ziidi := ziidi, timestamp := e.timestamp.getD now }

/-- `asdict` of a `PortfolioData`: every dataclass field is emitted. -/
def encodeFieldsDoc (p : PortfolioData) : FieldsDoc :=
  { fields := some p.fields, version := some p.version }

/-- `asdict` of a `SingleValueData`: the scalar is always emitted under the
`value` key, never under `investment`. -/
def encodeScalarDoc (s : SingleValueData) : ScalarDoc :=
  { value := some s.value, investment := none, version := some s.version }

/-- `asdict` of a `MonthData`: all keys present. -/
def encodeEntry (md : MonthData) : EntryDoc :=
  { month := some md.month,
    chumz := some (encodeFieldsDoc md.chumz),
    cash := some (encodeScalarDoc md.cash),
    crypto := some (encodeScalarDoc md.crypto),
    etica := some (encodeScalarDoc md.etica),
    ziidi := some (encodeFieldsDoc md.ziidi),
    timestamp := some md.timestamp }

/-- The decode loop shared by `load_data` and `import_data`: entries are
appended one by one; the first failing entry aborts the loop, leaving the
already-appended prefix, and reports the error. -/
def importLoop (now : String) (acc : List MonthData) :
    List EntryDoc → List MonthData × Option DecodeError
  | [] => (acc, none)
  | e :: rest =>
    match decodeEntry now e with
    | .ok md => importLoop now (acc ++ [md]) rest
    | .error err => (acc, some err)

/-! ## The ledger model -/

/-- Mutable state of `FinancialPlannerModel`: the month sequence and the two
snapshot stacks (Python lists used as stacks: push/pop at the end). -/
structure Model where
  months : List MonthData
  undo_stack : List (List MonthData)
  redo_stack : List (List MonthData)
  deriving DecidableEq, Repr

/-- Outcome of `save_data`: the write either succeeded or failed; a failure is
caught inside `save_data` and logged, never re-raised. -/
inductive SaveOutcome where
  | saved
  | failedLogged
  deriving DecidableEq, Repr

/-- `save_data`: serialize `months` with `asdict` and write the file; an
exception is swallowed (logged).  Returns the outcome and, on success, the
document now on disk. -/
def save_data (months : List MonthData) (writeOk : Bool) :
    SaveOutcome × Option (List EntryDoc) :=
  if writeOk then (.saved, some (months.map encodeEntry))
  else (.failedLogged, none)

/-- `add_month`: push a deep copy of `months` onto `undo_stack`, clear
`redo_stack`, append the record, then save.  No exception escapes. -/
def add_month (st : Model) (md : MonthData) (writeOk : Bool) : Model × SaveOutcome :=
  let st' : Model :=
    { months := st.months ++ [md],
      undo_stack := st.undo_stack ++ [st.months],
      redo_stack := [] }
  (st', (save_data st'.months writeOk).1)

/-- `undo`: with a non-empty `undo_stack`, push a deep copy of `months` onto
`redo_stack`, pop the last snapshot into `months`, and save; otherwise raise
`InputValidationError("Nothing to undo.")` leaving the state untouched. -/
def undo (st : Model) (writeOk : Bool) :
    Model × Except InputValidationError SaveOutcome :=
  match st.undo_stack.getLast? with
  | some snap =>
    let st' : Model :=
      { months := snap,
        undo_stack := st.undo_stack.dropLast,
        redo_stack := st.redo_stack ++ [st.months] }
    (st', .ok (save_data st'.months writeOk).1)
  | none => (st, .error ⟨"Nothing to undo."⟩)

/-- `redo`: with a non-empty `redo_stack`, push a deep copy of `months` onto
`undo_stack`, pop the last snapshot into `months`, and save; otherwise raise
`InputValidationError("Nothing to redo.")` leaving the state untouched. -/
def redo (st : Model) (writeOk : Bool) :
    Model × Except InputValidationError SaveOutcome :=
  match st.redo_stack.getLast? with
  | some snap =>
    let st' : Model :=
      { months := snap,
        undo_stack := st.undo_stack ++ [st.months],
        redo_stack := st.redo_stack.dropLast }
    (st', .ok (save_data st'.months writeOk).1)
  | none => (st, .error ⟨"Nothing to redo."⟩)

/-- `export_data`: serialize `months` with `asdict` to a caller-chosen file.
The ledger state is not touched. -/
def export_data (months : List MonthData) : List EntryDoc :=
  months.map encodeEntry

/-- `import_data`: reset `months` to `[]`, then append each decoded entry;
a decode failure propagates (the `except` clause re-raises) after the
well-formed prefix has already been appended.  The undo/redo stacks are not
touched. -/
def import_data (st : Model) (now : String) (doc : List EntryDoc) :
    Model × Option DecodeError :=
  let r := importLoop now [] doc
  ({ st with months := r.1 }, r.2)

/-- What `load_data` finds at the storage path: no file, a file `json.load`
cannot parse, or a parsed JSON array of entries. -/
inductive LoadInput where
  | missing
  | unparseable
  | parsed (doc : List EntryDoc)

/-- `load_data`: a missing file leaves `months` untouched; any exception while
parsing or decoding is caught, logged, and collapses to `months = []`.  No
exception escapes. -/
def load_data (st : Model) (now : String) (input : LoadInput) : Model :=
  match input with
  | .missing => st
  | .unparseable => { st with months := [] }
  | .parsed doc =>
    let r := importLoop now [] doc
    match r.2 with
    | none => { st with months := r.1 }
    | some _ => { st with months := [] }

/-- `FinancialPlannerModel.__init__`: start with empty sequence and stacks,
then `load_data`. -/
def FinancialPlannerModel_init (now : String) (input : LoadInput) : Model :=
  load_data { months := [], undo_stack := [], redo_stack := [] } now input

/-- `FinancialPlannerView.clear_all` (File → New, after confirmation): sets
`model.months = []` and nothing else — the stacks are left as they were. -/
def clear_all (st : Model) : Model :=
  { st with months := [] }

/-! ## Controller: entry validation and the add path -/

/-- `validate_numeric_field`: `float(value)`, with `ValueError` converted to
`InputValidationError(f"Invalid number for {field_name}: {value}")`. -/
def validate_numeric_field (value : String) (field_name : String) :
    Except InputValidationError Rat :=
  match pyFloat value with
  | some v => .ok v
  | none => .error ⟨"Invalid number for " ++ field_name ++ ": " ++ value⟩

/-- The raw input dict handed to `add_month_data`: `month`, two dicts of raw
strings for Chumz/Ziidi, and three raw scalar strings.  `Option` mirrors
`dict.get` with its defaults. -/
structure RawInput where
  month : Option String
  chumz : List (String × String)
  cash : Option String
  crypto : Option String
  etica : Option String
  ziidi : List (String × String)
  deriving DecidableEq, Repr

/-- The dict comprehension `{key: validate_numeric_field(val, key) for ...}`:
validate each raw field in order; the first failure aborts. -/
def validateFields : List (String × String) →
    Except InputValidationError (List (String × Rat))
  | [] => .ok []
  | (k, v) :: rest =>
    match validate_numeric_field v k with
    | .error e => .error e
    | .ok x =>
      match validateFields rest with
      | .error e => .error e
      | .ok xs => .ok ((k, x) :: xs)

/-- The `try` block of `add_month_data` up to the `MonthData(...)` construction:
empty trimmed label raises; every raw field is validated; on success the
record is built (with version tags defaulting to 1 and the ambient timestamp
`ts`). -/
def build_month_data (data : RawInput) (ts : String) :
    Except InputValidationError MonthData :=
  let month := pyStrip (data.month.getD "")
  if month = "" then
    .error ⟨"Month label cannot be empty."⟩
  else
    match validateFields data.chumz with
    | .error e => .error e
    | .ok chumz_fields =>
      match validate_numeric_field (data.cash.getD "0") "Cash" with
      | .error e => .error e
      | .ok cash_val =>
        match validate_numeric_field (data.crypto.getD "0") "Crypto" with
        | .error e => .error e
        | .ok crypto_val =>
          match validate_numeric_field (data.etica.getD "0") "Etica Investment" with
          | .error e => .error e
          | .ok etica_val =>
            match validateFields data.ziidi with
            | .error e => .error e
            | .ok ziidi_fields =>
              .ok { month := month,
                    chumz := { fields := chumz_fields },
                    cash := { value := cash_val },
                    crypto := { value := crypto_val },
                    etica := { value := etica_val },
                    ziidi := { fields := ziidi_fields },
                    timestamp := ts }

/-- `FinancialPlannerController.add_month_data`: on a validation failure the
exception is caught, logged and shown to the user — the model is untouched;
on success `model.add_month` runs. -/
def add_month_data (st : Model) (data : RawInput) (ts : String) (writeOk : Bool) :
    Model × Option InputValidationError :=
  match build_month_data data ts with
  | .ok md => ((add_month st md writeOk).1, none)
  | .error e => (st, some e)

/-- `rawFields`: the list of (field name, raw string) pairs that
`add_month_data` passes to `validate_numeric_field`, in evaluation order,
with the `dict.get` defaults of the source. -/
def rawFields (data : RawInput) : List (String × String) :=
  data.chumz ++
    [("Cash", data.cash.getD "0"), ("Crypto", data.crypto.getD "0"),
     ("Etica Investment", data.etica.getD "0")] ++
    data.ziidi

/-! ## Concrete sample data (used as witnesses and counterexample inputs) -/

/-- A fresh ledger, as built by `FinancialPlannerModel.__init__` before
`load_data`. -/
def emptyModel : Model :=
  { months := [], undo_stack := [], redo_stack := [] }

/-- A sample month record. -/
def mdMarch : MonthData :=
  { month := "March 2025",
    chumz := { fields := [("Emergency Fares", 100)] },
    cash := { value := 200 },
    crypto := { value := 50 },
    etica := { value := 300 },
    ziidi := { fields := [("Ziidi Shopping", 40)] },
    timestamp := "2025-03-01T00:00:00" }

/-- A second sample month record. -/
def mdApril : MonthData :=
  { month := "April 2025",
    chumz := { fields := [("Quick Savings", 10)] },
    cash := { value := 20 },
    crypto := { value := 5 },
    etica := { value := 30 },
    ziidi := { fields := [("Ziidi Shopping", 4)] },
    timestamp := "2025-04-01T00:00:00" }

/-- A stored entry whose `etica` object has neither `value` nor `investment`:
decoding it raises `KeyError("investment")`. -/
def eBadEtica : EntryDoc :=
  { month := some "June 2025",
    chumz := some { fields := some [], version := some 1 },
    cash := some { value := some 1, investment := none, version := some 1 },
    crypto := some { value := some 1, investment := none, version := some 1 },
    etica := some { value := none, investment := none, version := some 1 },
    ziidi := some { fields := some [], version := some 1 },
    timestamp := some "2025-06-01T00:00:00" }

/-- A stored entry using the legacy `investment` key for Etica. -/
def eLegacy : EntryDoc :=
  { month := some "May 2025",
    chumz := some { fields := some [("Emergency Fares", 1)], version := some 1 },
    cash := some { value := some 2, investment := none, version := some 1 },
    crypto := some { value := some 3, investment := none, version := some 1 },
    etica := some { value := none, investment := some 500, version := some 1 },
    ziidi := some { fields := some [("Ziidi Shopping", 4)], version := some 1 },
    timestamp := some "2025-05-01T00:00:00" }

/-- The month record `eLegacy` decodes to: the Etica scalar is 500. -/
def mdLegacy : MonthData :=
  { month := "May 2025",
    chumz := { fields := [("Emergency Fares", 1)] },
    cash := { value := 2 },
    crypto := { value := 3 },
    etica := { value := 500 },
    ziidi := { fields := [("Ziidi Shopping", 4)] },
    timestamp := "2025-05-01T00:00:00" }

/-- Raw input with a non-schema Chumz key and a negative Cash amount; the add
path accepts it. -/
def rawNegInput : RawInput :=
  { month := some "Jan 2026",
    chumz := [("Bogus Field", "1")],
    cash := some "-5",
    crypto := some "0",
    etica := some "0",
    ziidi := [] }

/-- The record `rawNegInput` builds into: one bogus Chumz field, Cash −5. -/
def mdNeg : MonthData :=
  { month := "Jan 2026",
    chumz := { fields := [("Bogus Field", 1)] },
    cash := { value := -5 },
    crypto := { value := 0 },
    etica := { value := 0 },
    ziidi := { fields := [] },
    timestamp := "2026-01-01T00:00:00" }

/-! ## General lemmas about the codec and the validator -/

/-- Decoding inverts encoding entry-wise. -/
theorem decodeEntry_encodeEntry (now : String) (md : MonthData) :
    decodeEntry now (encodeEntry md) = .ok md := rfl

/-- The decode loop on an all-encoded document decodes every entry. -/
theorem importLoop_encode (now : String) (ms : List MonthData) :
    ∀ acc : List MonthData,
      importLoop now acc (ms.map encodeEntry) = (acc ++ ms, none) := by
  induction ms with
  | nil => intro acc; simp [importLoop]
  | cons m t ih =>
    intro acc
    simp only [List.map_cons, importLoop, decodeEntry_encodeEntry]
    rw [ih (acc ++ [m])]
    simp

/-! ## Claim theorems -/

/-- C1 (counterexample): the claim "redo_stack is cleared by every
state-mutating operation other than undo/redo, in particular after clear()
and after import" is false.  Starting from a fresh model, two adds followed by
an undo reach a state with a non-empty `redo_stack`; `clear_all` empties
`months` but leaves `redo_stack` non-empty, and so does an import. -/
theorem clear_and_import_keep_redo_stack_cx :
    add_month emptyModel mdMarch true =
      ({ months := [mdMarch], undo_stack := [[]], redo_stack := [] }, .saved) ∧
    add_month { months := [mdMarch], undo_stack := [[]], redo_stack := [] } mdApril true =
      ({ months := [mdMarch, mdApril], undo_stack := [[], [mdMarch]],
         redo_stack := [] }, .saved) ∧
    undo { months := [mdMarch, mdApril], undo_stack := [[], [mdMarch]],
           redo_stack := [] } true =
      ({ months := [mdMarch], undo_stack := [[]],
         redo_stack := [[mdMarch, mdApril]] }, .ok .saved) ∧
    (clear_all { months := [mdMarch], undo_stack := [[]],
                 redo_stack := [[mdMarch, mdApril]] }).redo_stack ≠ [] ∧
    (import_data { months := [mdMarch], undo_stack := [[]],
                   redo_stack := [[mdMarch, mdApril]] }
        "N" (export_data [mdLegacy])).1.redo_stack ≠ [] := by
  refine ⟨rfl, rfl, rfl, by decide, by decide⟩

/-- C1 (amended): `redo_stack` is cleared by `add_month` (after any successful
add it is empty), but `clear_all` and `import_data` leave both stacks exactly
as they were — only the `months` sequence is replaced. -/
theorem redo_stack_clearing_behavior (st : Model) (md : MonthData) (w : Bool)
    (now : String) (doc : List EntryDoc) :
    (add_month st md w).1.redo_stack = [] ∧
    (clear_all st).redo_stack = st.redo_stack ∧
    (clear_all st).undo_stack = st.undo_stack ∧
    (import_data st now doc).1.redo_stack = st.redo_stack ∧
    (import_data st now doc).1.undo_stack = st.undo_stack :=
  ⟨rfl, rfl, rfl, rfl, rfl⟩

/-- C2: a persistence write failure during `add_month` (and during
`undo`/`redo`) leaves the already-applied in-memory mutation in place: the
append and the undo-stack push stand, the resulting state is identical to the
one produced when the write succeeds, the failure is merely logged
(`SaveOutcome.failedLogged`), and no error reaches the caller (the save
outcome is a plain value; for undo/redo it sits inside `.ok`). -/
theorem persistence_failure_keeps_mutation (st : Model) (md : MonthData) :
    (∀ w, (add_month st md w).1.months = st.months ++ [md] ∧
      (add_month st md w).1.undo_stack = st.undo_stack ++ [st.months] ∧
      (add_month st md w).1.redo_stack = []) ∧
    (add_month st md false).1 = (add_month st md true).1 ∧
    (add_month st md false).2 = .failedLogged ∧
    (st.undo_stack ≠ [] →
      (undo st false).1 = (undo st true).1 ∧ (undo st false).2 = .ok .failedLogged) ∧
    (st.redo_stack ≠ [] →
      (redo st false).1 = (redo st true).1 ∧ (redo st false).2 = .ok .failedLogged) := by
  refine ⟨fun w => ⟨rfl, rfl, rfl⟩, rfl, rfl, fun h => ?_, fun h => ?_⟩
  · obtain ⟨snap, hs⟩ := Option.isSome_iff_exists.mp (List.getLast?_isSome.mpr h)
    simp [undo, hs, save_data]
  · obtain ⟨snap, hs⟩ := Option.isSome_iff_exists.mp (List.getLast?_isSome.mpr h)
    simp [redo, hs, save_data]

/-- C2 (witness): concrete instance at a state with non-empty stacks. -/
theorem persistence_failure_keeps_mutation_witness :
    (add_month { months := [mdMarch], undo_stack := [[]], redo_stack := [[mdApril]] }
        mdApril false).1.months = [mdMarch] ++ [mdApril] ∧
    (undo { months := [mdMarch], undo_stack := [[]], redo_stack := [[mdApril]] }
        false).2 = .ok .failedLogged ∧
    (redo { months := [mdMarch], undo_stack := [[]], redo_stack := [[mdApril]] }
        false).2 = .ok .failedLogged :=
  ⟨((persistence_failure_keeps_mutation
      { months := [mdMarch], undo_stack := [[]], redo_stack := [[mdApril]] }
      mdApril).1 false).1,
   ((persistence_failure_keeps_mutation
      { months := [mdMarch], undo_stack := [[]], redo_stack := [[mdApril]] }
      mdApril).2.2.2.1 (by decide)).2,
   ((persistence_failure_keeps_mutation
      { months := [mdMarch], undo_stack := [[]], redo_stack := [[mdApril]] }
      mdApril).2.2.2.2 (by decide)).2⟩

/-- C7: importing an exported document restores the exported months exactly
(one decoded record per exported record, labels, fields, scalars, version tags
and timestamps preserved, and the stacks untouched); in particular
export-then-import of the ledger's own months is the identity on the whole
state, and this includes states whose records were decoded from a legacy
`investment`-keyed document (`eLegacy` decodes to `mdLegacy`, which
round-trips). -/
theorem import_export_roundtrip (st : Model) (now : String) (ms : List MonthData) :
    import_data st now (export_data ms) = ({ st with months := ms }, none) ∧
    import_data st now (export_data st.months) = (st, none) ∧
    decodeEntry now eLegacy = .ok mdLegacy ∧
    import_data st now (export_data [mdLegacy]) = ({ st with months := [mdLegacy] }, none) := by
  have key : ∀ l : List MonthData,
      import_data st now (export_data l) = ({ st with months := l }, none) := by
    intro l
    simp [import_data, export_data, importLoop_encode now l []]
  exact ⟨key ms, key st.months, rfl, key [mdLegacy]⟩

/-- C8: `undo` on an empty `undo_stack` raises
`InputValidationError("Nothing to undo.")` and leaves the whole state
untouched; `redo` on an empty `redo_stack` raises
`InputValidationError("Nothing to redo.")` and leaves the state untouched. -/
theorem undo_redo_empty_stack_errors (st : Model) (w : Bool) :
    (st.undo_stack = [] → undo st w = (st, .error ⟨"Nothing to undo."⟩)) ∧
    (st.redo_stack = [] → redo st w = (st, .error ⟨"Nothing to redo."⟩)) := by
  constructor
  · intro h; simp [undo, h]
  · intro h; simp [redo, h]

/-- C8 (witness): both failures at the fresh empty model. -/
theorem undo_redo_empty_stack_errors_witness :
    undo emptyModel true = (emptyModel, .error ⟨"Nothing to undo."⟩) ∧
    redo emptyModel true = (emptyModel, .error ⟨"Nothing to redo."⟩) :=
  ⟨(undo_redo_empty_stack_errors emptyModel true).1 rfl,
   (undo_redo_empty_stack_errors emptyModel true).2 rfl⟩

/-- C3: from any state with a non-empty `undo_stack`, `undo` succeeds, the
immediately following `redo` succeeds, and the resulting `months` equals the
pre-undo `months` (value equality of the embedded records — the embedding of
deep/structural equality, since snapshots are deep copies). -/
theorem undo_then_redo_restores_months (st : Model) (w1 w2 : Bool)
    (h : st.undo_stack ≠ []) :
    ∃ st1 o1 st2 o2,
      undo st w1 = (st1, .ok o1) ∧ redo st1 w2 = (st2, .ok o2) ∧
      st2.months = st.months := by
  obtain ⟨snap, hs⟩ := Option.isSome_iff_exists.mp (List.getLast?_isSome.mpr h)
  refine ⟨{ months := snap, undo_stack := st.undo_stack.dropLast,
            redo_stack := st.redo_stack ++ [st.months] },
          (save_data snap w1).1,
          { months := st.months,
            undo_stack := st.undo_stack.dropLast ++ [snap],
            redo_stack := (st.redo_stack ++ [st.months]).dropLast },
          (save_data st.months w2).1, ?_, ?_, rfl⟩
  · simp [undo, hs]
  · simp [redo, List.getLast?_concat]

/-- C3 (witness): concrete instance after two adds. -/
theorem undo_then_redo_restores_months_witness :
    ∃ st1 o1 st2 o2,
      undo { months := [mdMarch, mdApril], undo_stack := [[], [mdMarch]],
             redo_stack := [] } true = (st1, .ok o1) ∧
      redo st1 true = (st2, .ok o2) ∧
      st2.months = [mdMarch, mdApril] :=
  undo_then_redo_restores_months
    { months := [mdMarch, mdApril], undo_stack := [[], [mdMarch]], redo_stack := [] }
    true true (by decide)

/-- C4: decoding a stored Etica object resolves the scalar from the `value`
key when present, otherwise from the legacy `investment` key (so
`{investment: 500}` with no `value` decodes to the scalar 500); encoding
always emits the scalar under `value` and never emits `investment`. -/
theorem etica_codec_legacy_fallback :
    (∀ d : ScalarDoc, ∀ v : Rat, d.value = some v →
      decodeEticaDoc (some d) = .ok { value := v, version := d.version.getD 1 }) ∧
    (∀ d : ScalarDoc, ∀ v : Rat, d.value = none → d.investment = some v →
      decodeEticaDoc (some d) = .ok { value := v, version := d.version.getD 1 }) ∧
    decodeEticaDoc (some { value := none, investment := some 500, version := none }) =
      .ok { value := 500, version := 1 } ∧
    (∀ md : MonthData, (encodeEntry md).etica = some (encodeScalarDoc md.etica) ∧
      (encodeScalarDoc md.etica).value = some md.etica.value ∧
      (encodeScalarDoc md.etica).investment = none) := by
  refine ⟨?_, ?_, rfl, fun md => ⟨rfl, rfl, rfl⟩⟩
  · rintro ⟨val, inv, ver⟩ v hv
    dsimp only at hv
    subst hv
    rfl
  · rintro ⟨val, inv, ver⟩ v hv hi
    dsimp only at hv hi
    subst hv
    subst hi
    rfl

/-- C4 (witness): both decode branches at concrete stored objects. -/
theorem etica_codec_legacy_fallback_witness :
    decodeEticaDoc (some { value := some 7, investment := some 500, version := some 2 }) =
      .ok { value := 7, version := 2 } ∧
    decodeEticaDoc (some { value := none, investment := some 500, version := some 3 }) =
      .ok { value := 500, version := 3 } :=
  ⟨etica_codec_legacy_fallback.1 _ 7 rfl,
   etica_codec_legacy_fallback.2.1 _ 500 rfl rfl⟩

/-- `validate_numeric_field` succeeds exactly when the raw string parses. -/
theorem validate_numeric_field_ok (v k : String) (x : Rat) :
    validate_numeric_field v k = .ok x ↔ pyFloat v = some x := by
  cases h : pyFloat v <;> simp [validate_numeric_field, h]

/-- `validate_numeric_field` fails exactly on a non-parsing raw string, with
the "Invalid number for ..." message. -/
theorem validate_numeric_field_error (v k : String) (e : InputValidationError) :
    validate_numeric_field v k = .error e ↔
      pyFloat v = none ∧ e = ⟨"Invalid number for " ++ k ++ ": " ++ v⟩ := by
  cases h : pyFloat v <;> simp [validate_numeric_field, h]
  · exact comm

/-- A successful field validation preserves the key list and pairs every
produced value with its parsed raw string; in particular every raw string
parsed. -/
theorem validateFields_ok_keys (xs : List (String × String)) (l : List (String × Rat))
    (h : validateFields xs = .ok l) :
    l.map Prod.fst = xs.map Prod.fst ∧
    (∀ p ∈ l, ∃ raw, (p.1, raw) ∈ xs ∧ pyFloat raw = some p.2) ∧
    (∀ kv ∈ xs, (pyFloat kv.2).isSome) := by
  induction xs generalizing l with
  | nil =>
    simp only [validateFields, Except.ok.injEq] at h
    subst h
    simp
  | cons kv rest ih =>
    obtain ⟨k, v⟩ := kv
    cases hp : pyFloat v with
    | none =>
      exfalso
      simp [validateFields, validate_numeric_field, hp] at h
    | some x =>
      cases hr : validateFields rest with
      | error e =>
        exfalso
        simp [validateFields, validate_numeric_field, hp, hr] at h
      | ok tl =>
        have hl : l = (k, x) :: tl := by
          simp [validateFields, validate_numeric_field, hp, hr] at h
          exact h.symm
        subst hl
        obtain ⟨h1, h2, h3⟩ := ih tl hr
        refine ⟨by simp [h1], ?_, ?_⟩
        · intro p hmem
          rcases List.mem_cons.mp hmem with heq | hmem2
          · subst heq
            exact ⟨v, by simp, hp⟩
          · obtain ⟨raw, hraw, hpf⟩ := h2 p hmem2
            exact ⟨raw, List.mem_cons_of_mem _ hraw, hpf⟩
        · intro kv2 hkv
          rcases List.mem_cons.mp hkv with heq | hmem2
          · subst heq
            simp [hp]
          · exact h3 kv2 hmem2

/-- A failed field validation always carries an "Invalid number" message for
some non-parsing raw string. -/
theorem validateFields_error_shape (xs : List (String × String))
    (e : InputValidationError) (h : validateFields xs = .error e) :
    ∃ k v, pyFloat v = none ∧
      e = ⟨"Invalid number for " ++ k ++ ": " ++ v⟩ := by
  induction xs with
  | nil => simp [validateFields] at h
  | cons kv rest ih =>
    obtain ⟨k, v⟩ := kv
    cases hp : pyFloat v with
    | none =>
      refine ⟨k, v, hp, ?_⟩
      simp [validateFields, validate_numeric_field, hp] at h
      exact h.symm
    | some x =>
      cases hr : validateFields rest with
      | error e2 =>
        have he : e2 = e := by
          simp [validateFields, validate_numeric_field, hp, hr] at h
          exact h
        subst he
        exact ih hr
      | ok tl =>
        exfalso
        simp [validateFields, validate_numeric_field, hp, hr] at h

/-- When every raw field parses, validation succeeds. -/
theorem validateFields_ok_of_all (xs : List (String × String))
    (h : ∀ kv ∈ xs, (pyFloat kv.2).isSome) :
    ∃ l, validateFields xs = .ok l := by
  induction xs with
  | nil => exact ⟨[], rfl⟩
  | cons kv rest ih =>
    obtain ⟨k, v⟩ := kv
    obtain ⟨x, hx⟩ := Option.isSome_iff_exists.mp (h (k, v) (by simp))
    obtain ⟨l, hl⟩ := ih (fun kv2 hkv => h kv2 (List.mem_cons_of_mem _ hkv))
    exact ⟨(k, x) :: l, by simp [validateFields, validate_numeric_field, hx, hl]⟩

/-- Inversion of a successful `build_month_data`: the label was non-empty, each
validation stage succeeded on exactly the corresponding component of the
record, and the version tags default to 1. -/
theorem build_ok_inversion (data : RawInput) (ts : String) (md : MonthData)
    (h : build_month_data data ts = .ok md) :
    pyStrip (data.month.getD "") ≠ "" ∧
    validateFields data.chumz = .ok md.chumz.fields ∧
    validate_numeric_field (data.cash.getD "0") "Cash" = .ok md.cash.value ∧
    validate_numeric_field (data.crypto.getD "0") "Crypto" = .ok md.crypto.value ∧
    validate_numeric_field (data.etica.getD "0") "Etica Investment" = .ok md.etica.value ∧
    validateFields data.ziidi = .ok md.ziidi.fields ∧
    md.month = pyStrip (data.month.getD "") ∧ md.timestamp = ts := by
  by_cases hm : pyStrip (data.month.getD "") = ""
  · simp [build_month_data, hm] at h
  · cases hc : validateFields data.chumz with
    | error e => simp [build_month_data, hm, hc] at h
    | ok cf =>
      cases h1 : validate_numeric_field (data.cash.getD "0") "Cash" with
      | error e => simp [build_month_data, hm, hc, h1] at h
      | ok x1 =>
        cases h2 : validate_numeric_field (data.crypto.getD "0") "Crypto" with
        | error e => simp [build_month_data, hm, hc, h1, h2] at h
        | ok x2 =>
          cases h3 : validate_numeric_field (data.etica.getD "0") "Etica Investment" with
          | error e => simp [build_month_data, hm, hc, h1, h2, h3] at h
          | ok x3 =>
            cases hz : validateFields data.ziidi with
            | error e => simp [build_month_data, hm, hc, h1, h2, h3, hz] at h
            | ok zf =>
              simp only [build_month_data, if_neg hm, hc, h1, h2, h3, hz,
                Except.ok.injEq] at h
              subst h
              exact ⟨hm, rfl, rfl, rfl, rfl, rfl, rfl, rfl⟩

/-- With a non-empty label, a `build_month_data` failure is always an
"Invalid number" failure on some non-parsing raw string. -/
theorem build_error_shape (data : RawInput) (ts : String) (e : InputValidationError)
    (hm : pyStrip (data.month.getD "") ≠ "") (h : build_month_data data ts = .error e) :
    ∃ k v, pyFloat v = none ∧
      e = ⟨"Invalid number for " ++ k ++ ": " ++ v⟩ := by
  cases hc : validateFields data.chumz with
  | error e2 =>
    have he : e2 = e := by simp [build_month_data, hm, hc] at h; exact h
    subst he
    exact validateFields_error_shape _ _ hc
  | ok cf =>
    cases h1 : validate_numeric_field (data.cash.getD "0") "Cash" with
    | error e2 =>
      have he : e2 = e := by simp [build_month_data, hm, hc, h1] at h; exact h
      subst he
      obtain ⟨hp, hsh⟩ := (validate_numeric_field_error _ _ _).mp h1
      exact ⟨"Cash", data.cash.getD "0", hp, hsh⟩
    | ok x1 =>
      cases h2 : validate_numeric_field (data.crypto.getD "0") "Crypto" with
      | error e2 =>
        have he : e2 = e := by simp [build_month_data, hm, hc, h1, h2] at h; exact h
        subst he
        obtain ⟨hp, hsh⟩ := (validate_numeric_field_error _ _ _).mp h2
        exact ⟨"Crypto", data.crypto.getD "0", hp, hsh⟩
      | ok x2 =>
        cases h3 : validate_numeric_field (data.etica.getD "0") "Etica Investment" with
        | error e2 =>
          have he : e2 = e := by simp [build_month_data, hm, hc, h1, h2, h3] at h; exact h
          subst he
          obtain ⟨hp, hsh⟩ := (validate_numeric_field_error _ _ _).mp h3
          exact ⟨"Etica Investment", data.etica.getD "0", hp, hsh⟩
        | ok x3 =>
          cases hz : validateFields data.ziidi with
          | error e2 =>
            have he : e2 = e := by
              simp [build_month_data, hm, hc, h1, h2, h3, hz] at h; exact h
            subst he
            exact validateFields_error_shape _ _ hz
          | ok zf =>
            simp [build_month_data, hm, hc, h1, h2, h3, hz] at h

/-- With a non-empty label and every raw field parsing, `build_month_data`
succeeds. -/
theorem build_ok_of_all (data : RawInput) (ts : String)
    (hm : pyStrip (data.month.getD "") ≠ "")
    (hall : ∀ kv ∈ rawFields data, (pyFloat kv.2).isSome) :
    ∃ md, build_month_data data ts = .ok md := by
  have hchumz : ∀ kv ∈ data.chumz, (pyFloat kv.2).isSome := fun kv hkv =>
    hall kv (List.mem_append_left _ (List.mem_append_left _ hkv))
  have hziidi : ∀ kv ∈ data.ziidi, (pyFloat kv.2).isSome := fun kv hkv =>
    hall kv (List.mem_append_right _ hkv)
  obtain ⟨cf, hc⟩ := validateFields_ok_of_all _ hchumz
  obtain ⟨zf, hz⟩ := validateFields_ok_of_all _ hziidi
  obtain ⟨x1, hx1⟩ := Option.isSome_iff_exists.mp
    (hall ("Cash", data.cash.getD "0")
      (List.mem_append_left _ (List.mem_append_right _ (by simp))))
  obtain ⟨x2, hx2⟩ := Option.isSome_iff_exists.mp
    (hall ("Crypto", data.crypto.getD "0")
      (List.mem_append_left _ (List.mem_append_right _ (by simp))))
  obtain ⟨x3, hx3⟩ := Option.isSome_iff_exists.mp
    (hall ("Etica Investment", data.etica.getD "0")
      (List.mem_append_left _ (List.mem_append_right _ (by simp))))
  exact ⟨{ month := pyStrip (data.month.getD ""), chumz := { fields := cf },
           cash := { value := x1 }, crypto := { value := x2 },
           etica := { value := x3 }, ziidi := { fields := zf }, timestamp := ts },
         by simp [build_month_data, hm, hc, hz, validate_numeric_field, hx1, hx2, hx3]⟩

/-- A failed build leaves the controller's add untouched and surfaces the
error. -/
theorem add_month_data_error (st : Model) (data : RawInput) (ts : String)
    (w : Bool) (e : InputValidationError) (h : build_month_data data ts = .error e) :
    add_month_data st data ts w = (st, some e) := by
  simp [add_month_data, h]

/-- A successful build runs `add_month` and reports no error. -/
theorem add_month_data_ok (st : Model) (data : RawInput) (ts : String)
    (w : Bool) (md : MonthData) (h : build_month_data data ts = .ok md) :
    add_month_data st data ts w = ((add_month st md w).1, none) := by
  simp [add_month_data, h]

/-- The raw string `"0"` parses to the scalar 0. -/
theorem pyFloat_zero : pyFloat "0" = some 0 := by
  rw [show pyFloat "0" =
    some ((1 : Rat) * (((0 : Nat) : Rat) + ((0 : Nat) : Rat) / (10 : Rat) ^ (0 : Nat))) from rfl]
  norm_num

/-- The raw string `"1"` parses to 1. -/
theorem pyFloat_one : pyFloat "1" = some 1 := by
  rw [show pyFloat "1" =
    some ((1 : Rat) * (((1 : Nat) : Rat) + ((0 : Nat) : Rat) / (10 : Rat) ^ (0 : Nat))) from rfl]
  norm_num

/-- The raw string `"-5"` parses to the negative scalar −5. -/
theorem pyFloat_neg_five : pyFloat "-5" = some (-5) := by
  rw [show pyFloat "-5" =
    some ((-1 : Rat) * (((5 : Nat) : Rat) + ((0 : Nat) : Rat) / (10 : Rat) ^ (0 : Nat))) from rfl]
  norm_num

/-- `rawNegInput` passes validation and builds exactly `mdNeg`. -/
theorem build_rawNegInput : build_month_data rawNegInput "2026-01-01T00:00:00" = .ok mdNeg := by
  have hm : pyStrip (rawNegInput.month.getD "") ≠ "" := by decide
  have hc : validateFields rawNegInput.chumz = .ok [("Bogus Field", 1)] := by
    simp [rawNegInput, validateFields, validate_numeric_field, pyFloat_one]
  have h1 : validate_numeric_field (rawNegInput.cash.getD "0") "Cash" = .ok (-5) := by
    simp [rawNegInput, validate_numeric_field, pyFloat_neg_five]
  have h2 : validate_numeric_field (rawNegInput.crypto.getD "0") "Crypto" = .ok 0 := by
    simp [rawNegInput, validate_numeric_field, pyFloat_zero]
  have h3 : validate_numeric_field (rawNegInput.etica.getD "0") "Etica Investment" = .ok 0 := by
    simp [rawNegInput, validate_numeric_field, pyFloat_zero]
  have hz : validateFields rawNegInput.ziidi = .ok [] := by
    simp [rawNegInput, validateFields]
  simp only [build_month_data, if_neg hm, hc, h1, h2, h3, hz]
  rfl

/-- C5: building a month entry is all-or-nothing.  An empty trimmed label
fails with the empty-month-label error; any failure leaves the ledger state
exactly as it was; with a non-empty label, a raw field that does not parse
makes the add fail with an "Invalid number" error; with a non-empty label and
all raw fields parsing (and `"0"` parses, to the scalar 0), exactly one
record is appended via `add_month`. -/
theorem add_month_data_all_or_nothing (st : Model) (data : RawInput)
    (ts : String) (w : Bool) :
    (pyStrip (data.month.getD "") = "" →
      add_month_data st data ts w = (st, some ⟨"Month label cannot be empty."⟩)) ∧
    (∀ e, (add_month_data st data ts w).2 = some e →
      (add_month_data st data ts w).1 = st) ∧
    (pyStrip (data.month.getD "") ≠ "" →
      (∃ kv ∈ rawFields data, pyFloat kv.2 = none) →
      ∃ k v, pyFloat v = none ∧
        (add_month_data st data ts w).2 =
          some ⟨"Invalid number for " ++ k ++ ": " ++ v⟩) ∧
    (pyStrip (data.month.getD "") ≠ "" →
      (∀ kv ∈ rawFields data, (pyFloat kv.2).isSome) →
      ∃ md, add_month_data st data ts w = ((add_month st md w).1, none) ∧
        (add_month_data st data ts w).1.months = st.months ++ [md]) ∧
    pyFloat "0" = some 0 := by
  refine ⟨?_, ?_, ?_, ?_, pyFloat_zero⟩
  · intro hm
    have hb : build_month_data data ts = .error ⟨"Month label cannot be empty."⟩ := by
      simp [build_month_data, hm]
    exact add_month_data_error st data ts w _ hb
  · intro e he
    cases hb : build_month_data data ts with
    | ok md =>
      rw [add_month_data_ok st data ts w md hb] at he
      simp at he
    | error e2 =>
      rw [add_month_data_error st data ts w e2 hb]
  · intro hm hbad
    cases hb : build_month_data data ts with
    | ok md =>
      exfalso
      obtain ⟨kv, hmem, hnone⟩ := hbad
      obtain ⟨_, hc, h1, h2, h3, hz, _, _⟩ := build_ok_inversion data ts md hb
      have hparse : (pyFloat kv.2).isSome := by
        rcases List.mem_append.mp hmem with hmem2 | hz2
        · rcases List.mem_append.mp hmem2 with hc2 | hmid
          · exact (validateFields_ok_keys _ _ hc).2.2 kv hc2
          · simp only [List.mem_cons, List.not_mem_nil, or_false] at hmid
            rcases hmid with h | h | h
            · rw [h]
              exact ((validate_numeric_field_ok _ _ _).mp h1).symm ▸ rfl
            · rw [h]
              exact ((validate_numeric_field_ok _ _ _).mp h2).symm ▸ rfl
            · rw [h]
              exact ((validate_numeric_field_ok _ _ _).mp h3).symm ▸ rfl
        · exact (validateFields_ok_keys _ _ hz).2.2 kv hz2
      rw [hnone] at hparse
      exact Bool.false_ne_true hparse
    | error e =>
      obtain ⟨k, v, hp, hsh⟩ := build_error_shape data ts e hm hb
      subst hsh
      refine ⟨k, v, hp, ?_⟩
      rw [add_month_data_error st data ts w _ hb]
  · intro hm hall
    obtain ⟨md, hb⟩ := build_ok_of_all data ts hm hall
    refine ⟨md, add_month_data_ok st data ts w md hb, ?_⟩
    rw [add_month_data_ok st data ts w md hb]
    rfl

/-- C5 (witness): concrete instances of each branch — whitespace-only label
rejected; a non-numeric Chumz field rejected with an "Invalid number" error;
an all-numeric input (with `"0"` scalars) appends exactly one record. -/
theorem add_month_data_all_or_nothing_witness :
    add_month_data emptyModel
      { month := some " ", chumz := [], cash := none, crypto := none,
        etica := none, ziidi := [] } "T" true =
      (emptyModel, some ⟨"Month label cannot be empty."⟩) ∧
    (∃ k v, pyFloat v = none ∧
      (add_month_data emptyModel
        { month := some "Feb 2026", chumz := [("Quick Savings", "abc")],
          cash := some "1", crypto := none, etica := none, ziidi := [] }
        "T" true).2 = some ⟨"Invalid number for " ++ k ++ ": " ++ v⟩) ∧
    (∃ md, add_month_data emptyModel
        { month := some "Feb 2026", chumz := [("Quick Savings", "0")],
          cash := some "0", crypto := some "0", etica := some "0", ziidi := [] }
        "T" true = ((add_month emptyModel md true).1, none) ∧
      (add_month_data emptyModel
        { month := some "Feb 2026", chumz := [("Quick Savings", "0")],
          cash := some "0", crypto := some "0", etica := some "0", ziidi := [] }
        "T" true).1.months = [] ++ [md]) :=
  ⟨(add_month_data_all_or_nothing emptyModel
      { month := some " ", chumz := [], cash := none, crypto := none,
        etica := none, ziidi := [] } "T" true).1 (by decide),
   (add_month_data_all_or_nothing emptyModel
      { month := some "Feb 2026", chumz := [("Quick Savings", "abc")],
        cash := some "1", crypto := none, etica := none, ziidi := [] }
      "T" true).2.2.1 (by decide)
     ⟨("Quick Savings", "abc"), by decide, by decide⟩,
   (add_month_data_all_or_nothing emptyModel
      { month := some "Feb 2026", chumz := [("Quick Savings", "0")],
        cash := some "0", crypto := some "0", etica := some "0", ziidi := [] }
      "T" true).2.2.2.1 (by decide) (by decide)⟩

/-- C6 (counterexample): the claim "every record entering the ledger through
the add path has field-name sets equal to the fixed schema and all values
≥ 0" is false.  `rawNegInput` (one non-schema Chumz field named "Bogus
Field", no Ziidi fields, Cash "-5") passes validation: the record `mdNeg`
enters the ledger with a negative Cash value and field-name sets different
from both fixed schemas. -/
theorem add_path_schema_nonneg_cx :
    add_month_data emptyModel rawNegInput "2026-01-01T00:00:00" true =
      ({ months := [mdNeg], undo_stack := [[]], redo_stack := [] }, none) ∧
    mdNeg.cash.value < 0 ∧
    mdNeg.chumz.fields.map Prod.fst ≠ PORTFOLIO_DEFINITIONS_Chumz ∧
    mdNeg.ziidi.fields.map Prod.fst ≠ PORTFOLIO_DEFINITIONS_Ziidi := by
  refine ⟨?_, by decide, by decide, by decide⟩
  rw [add_month_data_ok emptyModel rawNegInput "2026-01-01T00:00:00" true mdNeg
    build_rawNegInput]
  rfl

/-- C6 (amended): the add path enforces neither the fixed portfolio schema
nor non-negativity.  For every record it appends, each multi-field
container's field-name list equals exactly the key list of the
caller-supplied raw map (so it equals the fixed schema only when the caller —
e.g. the GUI form — supplies those keys), and every stored value is exactly
the parsed value of the corresponding raw string, which may be negative. -/
theorem add_path_fields_from_input (data : RawInput) (ts : String) (md : MonthData)
    (h : build_month_data data ts = .ok md) :
    md.chumz.fields.map Prod.fst = data.chumz.map Prod.fst ∧
    md.ziidi.fields.map Prod.fst = data.ziidi.map Prod.fst ∧
    (∀ p ∈ md.chumz.fields, ∃ raw, (p.1, raw) ∈ data.chumz ∧ pyFloat raw = some p.2) ∧
    (∀ p ∈ md.ziidi.fields, ∃ raw, (p.1, raw) ∈ data.ziidi ∧ pyFloat raw = some p.2) ∧
    pyFloat (data.cash.getD "0") = some md.cash.value ∧
    pyFloat (data.crypto.getD "0") = some md.crypto.value ∧
    pyFloat (data.etica.getD "0") = some md.etica.value := by
  obtain ⟨_, hc, h1, h2, h3, hz, _, _⟩ := build_ok_inversion data ts md h
  obtain ⟨hck, hcv, _⟩ := validateFields_ok_keys _ _ hc
  obtain ⟨hzk, hzv, _⟩ := validateFields_ok_keys _ _ hz
  exact ⟨hck, hzk, hcv, hzv,
    (validate_numeric_field_ok _ _ _).mp h1,
    (validate_numeric_field_ok _ _ _).mp h2,
    (validate_numeric_field_ok _ _ _).mp h3⟩

/-- C6 (witness): the amended theorem at `rawNegInput`: the stored Chumz keys
are exactly the caller's bogus key list. -/
theorem add_path_fields_from_input_witness :
    mdNeg.chumz.fields.map Prod.fst = rawNegInput.chumz.map Prod.fst :=
  (add_path_fields_from_input rawNegInput "2026-01-01T00:00:00" mdNeg build_rawNegInput).1

/-- The decode loop continues over a cleanly-decoded prefix. -/
theorem importLoop_append (now : String) (pre : List EntryDoc) :
    ∀ (acc acc2 : List MonthData) (xs : List EntryDoc),
      importLoop now acc pre = (acc2, none) →
      importLoop now acc (pre ++ xs) = importLoop now acc2 xs := by
  induction pre with
  | nil =>
    intro acc acc2 xs h
    simp only [importLoop] at h
    rw [List.nil_append, (Prod.mk.injEq _ _ _ _).mp h |>.1]
  | cons e rest ih =>
    intro acc acc2 xs h
    cases hd : decodeEntry now e with
    | ok md =>
      simp only [importLoop, hd] at h
      simp only [List.cons_append, importLoop, hd]
      exact ih _ _ _ h
    | error err =>
      simp only [importLoop, hd] at h
      exact absurd h (by simp)

/-- C9: constructing the model never fails.  A missing storage file leaves
the freshly-initialized empty state; an unparseable file collapses to empty
months (the exception is caught and logged); a parsed file whose decoding
fails anywhere also collapses to empty months; and a cleanly-decoding file
loads every entry.  In all cases `load_data` returns a state — no exception
reaches the caller. -/
theorem load_data_never_raises (now : String) (st : Model) (doc : List EntryDoc) :
    FinancialPlannerModel_init now .missing = emptyModel ∧
    (load_data st now .unparseable).months = [] ∧
    ((importLoop now [] doc).2.isSome →
      (load_data st now (.parsed doc)).months = []) ∧
    ((importLoop now [] doc).2 = none →
      (load_data st now (.parsed doc)).months = (importLoop now [] doc).1) := by
  refine ⟨rfl, rfl, ?_, ?_⟩
  · intro h
    obtain ⟨err, he⟩ := Option.isSome_iff_exists.mp h
    simp [load_data, he]
  · intro h
    simp [load_data, h]

/-- C9 (witness): a file with a malformed entry (etica lacking both keys)
loads as empty months even over a previously non-empty state; a clean legacy
file loads its record. -/
theorem load_data_never_raises_witness :
    (load_data { months := [mdMarch], undo_stack := [], redo_stack := [] } "N"
      (.parsed [eBadEtica])).months = [] ∧
    (load_data emptyModel "N" (.parsed [eLegacy])).months = [mdLegacy] :=
  ⟨(load_data_never_raises "N"
      { months := [mdMarch], undo_stack := [], redo_stack := [] } [eBadEtica]).2.2.1
     (by decide),
   (load_data_never_raises "N" emptyModel [eLegacy]).2.2.2 (by decide)⟩

/-- C10: import is not atomic on a decode failure.  If a document consists of
a cleanly-decoding prefix, then a malformed entry, then anything, `import_data`
raises the decode error after having already replaced `months` with the
decoded prefix — the pre-import months are gone and the partial prefix
remains (stacks untouched). -/
theorem import_partial_prefix_on_decode_error (st : Model) (now : String)
    (preDoc : List EntryDoc) (bad : EntryDoc) (rest : List EntryDoc)
    (msGood : List MonthData) (err : DecodeError)
    (hpre : importLoop now [] preDoc = (msGood, none))
    (hbad : decodeEntry now bad = .error err) :
    import_data st now (preDoc ++ bad :: rest) =
      ({ st with months := msGood }, some err) := by
  have h2 := importLoop_append now preDoc [] msGood (bad :: rest) hpre
  simp [import_data, h2, importLoop, hbad]

/-- C10 (witness): importing `[encodeEntry mdMarch, eBadEtica]` over a
non-trivial state leaves exactly the decoded prefix `[mdMarch]` in `months`
and reports `KeyError("investment")`. -/
theorem import_partial_prefix_on_decode_error_witness :
    import_data { months := [mdApril], undo_stack := [[mdApril]],
                  redo_stack := [[mdMarch]] } "N"
      ([encodeEntry mdMarch] ++ eBadEtica :: []) =
      ({ months := [mdMarch], undo_stack := [[mdApril]],
         redo_stack := [[mdMarch]] }, some (.keyError "investment")) :=
  import_partial_prefix_on_decode_error
    { months := [mdApril], undo_stack := [[mdApril]], redo_stack := [[mdMarch]] }
    "N" [encodeEntry mdMarch] eBadEtica [] [mdMarch] (.keyError "investment")
    rfl rfl
